import Mathlib

/-!
Shallow embedding of `src/vector3.rs` (the `Vector3` 3D vector math type).

The Rust `f32` components are modelled as real numbers; `f32::sqrt` becomes
`Real.sqrt`, `f32::acos` becomes `Real.arccos`, and `std::f32::EPSILON`
(the machine epsilon `2^-23`) becomes the rational constant `1 / 2 ^ 23`.
Each Lean definition mirrors one Rust item; the mutating `normalize` is
embedded as a value-returning function on its receiver.
-/

namespace TechMath

/-- Embeds `std::f32::EPSILON` = 2^-23, the threshold used by `normalize`,
`normalized` and `project` in `vector3.rs`. -/
noncomputable def EPSILON : ℝ := 1 / 2 ^ 23

/-- Modelled from the spec: the external `math` crate (imported with
`use math::*;`) is not in the repository; the spec describes its float
helper as "an approximate-equality predicate for floats (epsilon-based)"
that treats two floats as equal when they differ by at most the shared
small epsilon tolerance. -/
def approx_eq (a b : ℝ) : Prop := |a - b| ≤ EPSILON

/-- Embeds `struct Vector3 { x: f32, y: f32, z: f32 }`. -/
@[ext]
structure Vector3 where
  x : ℝ
  y : ℝ
  z : ℝ

namespace Vector3

/-- Embeds `const ZERO: Vector3 = Vector3 { x: 0.0, y: 0.0, z: 0.0 }`. -/
def ZERO : Vector3 := ⟨0, 0, 0⟩

/-- Embeds `const ONE: Vector3 = Vector3 { x: 1.0, y: 1.0, z: 1.0 }`. -/
def ONE : Vector3 := ⟨1, 1, 1⟩

/-- Embeds `const FORWARD: Vector3 = Vector3 { x: 0.0, y: 0.0, z: 1.0 }`. -/
def FORWARD : Vector3 := ⟨0, 0, 1⟩

/-- Embeds `const RIGHT: Vector3 = Vector3 { x: 1.0, y: 0.0, z: 0.0 }`. -/
def RIGHT : Vector3 := ⟨1, 0, 0⟩

/-- Embeds `const UP: Vector3 = Vector3 { x: 0.0, y: 1.0, z: 0.0 }`. -/
def UP : Vector3 := ⟨0, 1, 0⟩

/-- Embeds `Vector3::new`. -/
def new (x y z : ℝ) : Vector3 := ⟨x, y, z⟩

/-- Embeds `sqr_magnitude`: `self.x * self.x + self.y * self.y + self.z * self.z`. -/
def sqr_magnitude (v : Vector3) : ℝ := v.x * v.x + v.y * v.y + v.z * v.z

/-- Embeds `magnitude`: `(x*x + y*y + z*z).sqrt()`. -/
noncomputable def magnitude (v : Vector3) : ℝ :=
  Real.sqrt (v.x * v.x + v.y * v.y + v.z * v.z)

/-- Embeds `impl Add for Vector3` (component-wise vector addition). -/
def add (a b : Vector3) : Vector3 := ⟨a.x + b.x, a.y + b.y, a.z + b.z⟩

/-- Embeds `impl Sub for Vector3` (component-wise vector subtraction). -/
def sub (a b : Vector3) : Vector3 := ⟨a.x - b.x, a.y - b.y, a.z - b.z⟩

/-- Embeds `impl Mul<f32> for Vector3`: each component is `self.c * other`. -/
def mul (v : Vector3) (s : ℝ) : Vector3 := ⟨v.x * s, v.y * s, v.z * s⟩

/-- Embeds `impl Div<f32> for Vector3`: each component is `self.c / other`. -/
noncomputable def div (v : Vector3) (s : ℝ) : Vector3 := ⟨v.x / s, v.y / s, v.z / s⟩

/-- Embeds `impl Neg for Vector3`. -/
def neg (v : Vector3) : Vector3 := ⟨-v.x, -v.y, -v.z⟩

/-- Embeds `impl Mul<Vector3> for f32`: each component is `other.c * self`,
with `self` the scalar. -/
def scalar_mul (s : ℝ) (v : Vector3) : Vector3 := ⟨v.x * s, v.y * s, v.z * s⟩

/-- Embeds the mutating `normalize(&mut self)` as a function from the old
receiver value to the new one: if `mag > EPSILON` the receiver becomes
`*self / mag`, otherwise it becomes `Vector3::ZERO`. -/
noncomputable def normalize (v : Vector3) : Vector3 :=
  if v.magnitude > EPSILON then v.div v.magnitude else ZERO

/-- Embeds the pure `normalized(&self)`. -/
noncomputable def normalized (v : Vector3) : Vector3 :=
  if v.magnitude > EPSILON then v.div v.magnitude else ZERO

/-- Embeds `dot`. -/
def dot (a b : Vector3) : ℝ := a.x * b.x + a.y * b.y + a.z * b.z

/-- Embeds `cross`. -/
def cross (a b : Vector3) : Vector3 :=
  ⟨a.y * b.z - a.z * b.y, a.z * b.x - a.x * b.z, a.x * b.y - a.y * b.x⟩

/-- Embeds `distance`: `(*self - other).magnitude()`. -/
noncomputable def distance (a b : Vector3) : ℝ := (a.sub b).magnitude

/-- Embeds Rust's `f32::clamp(self, min, max)`: `min` if `self < min`,
`max` if `self > max`, otherwise `self`. -/
noncomputable def rust_clamp (x lo hi : ℝ) : ℝ :=
  if x < lo then lo else if x > hi then hi else x

/-- Embeds `angle`: `self.normalized().dot(other.normalized()).clamp(-1.0, 1.0).acos()`. -/
noncomputable def angle (a b : Vector3) : ℝ :=
  Real.arccos (rust_clamp (a.normalized.dot b.normalized) (-1) 1)

/-- Embeds `scale` (component-wise product). -/
def scale (a b : Vector3) : Vector3 := ⟨a.x * b.x, a.y * b.y, a.z * b.z⟩

/-- Embeds `clamp_magnitude`: if `sqr_magnitude > max_length * max_length`
return `normalized() * max_length`, otherwise return the vector unchanged. -/
noncomputable def clamp_magnitude (v : Vector3) (max_length : ℝ) : Vector3 :=
  if v.sqr_magnitude > max_length * max_length then v.normalized.mul max_length else v

/-- Embeds `project`: `let dot = normal.dot(normal); if dot < EPSILON {
Vector3::ZERO } else { *self * self.dot(normal) / dot }`. Note the `else`
branch scales `*self`, not `normal`. -/
noncomputable def project (v normal : Vector3) : Vector3 :=
  if normal.dot normal < EPSILON then ZERO
  else (v.mul (v.dot normal)).div (normal.dot normal)

/-- Embeds `project_on_segment`: `segment = end - start; proj_point =
self.project(segment.normalized()); (proj_point - start).clamp_magnitude(segment.magnitude())`. -/
noncomputable def project_on_segment (p start e : Vector3) : Vector3 :=
  ((p.project (e.sub start).normalized).sub start).clamp_magnitude (e.sub start).magnitude

/-- Embeds `project_on_plane`: `*self - self.project(normal)`. -/
noncomputable def project_on_plane (v normal : Vector3) : Vector3 :=
  v.sub (v.project normal)

/-- Embeds `reflect`: `-2.0 * normal.dot(*self) * normal + *self`. -/
def reflect (v normal : Vector3) : Vector3 :=
  (scalar_mul (-2 * normal.dot v) normal).add v

/-- Embeds `impl PartialEq for Vector3`: component-wise `approx_eq`. This is
the `==` used by the repository's tests. -/
def eq (a b : Vector3) : Prop :=
  approx_eq a.x b.x ∧ approx_eq a.y b.y ∧ approx_eq a.z b.z

end Vector3

/-- Modelled from the spec: the spec's formula for `project` is
"if dot(normal,normal) < epsilon, result is ZERO ...; otherwise
normal * dot(v, normal) / dot(normal, normal)" — the `else` branch scales
`normal`, unlike the source's `else` branch which scales `v`. -/
noncomputable def spec_project (v normal : Vector3) : Vector3 :=
  if normal.dot normal < EPSILON then Vector3.ZERO
  else (normal.mul (v.dot normal)).div (normal.dot normal)

/-- Modelled from the spec: `project_on_segment` is described as projecting
`point` onto the line through `start` and `end` (the closest point of that
line), taking the result relative to `start`, and clamping it via
`clamp_magnitude` to the segment length. -/
noncomputable def spec_project_on_segment (p start e : Vector3) : Vector3 :=
  ((start.add (((e.sub start).normalized).mul
      ((p.sub start).dot (e.sub start).normalized))).sub start).clamp_magnitude
    (e.sub start).magnitude

-- Basic facts shared by the claim proofs.

lemma EPSILON_pos : (0 : ℝ) < EPSILON := by norm_num [EPSILON]

lemma approx_eq_of_eq {a b : ℝ} (h : a = b) : approx_eq a b := by
  simp [approx_eq, h, le_of_lt EPSILON_pos]

lemma Vector3.eq_of_eq {a b : Vector3} (h : a = b) : Vector3.eq a b :=
  ⟨approx_eq_of_eq (by rw [h]), approx_eq_of_eq (by rw [h]), approx_eq_of_eq (by rw [h])⟩

lemma Vector3.sqr_magnitude_nonneg (v : Vector3) : 0 ≤ v.sqr_magnitude :=
  add_nonneg (add_nonneg (mul_self_nonneg _) (mul_self_nonneg _)) (mul_self_nonneg _)

lemma Vector3.magnitude_eq_sqrt (v : Vector3) :
    v.magnitude = Real.sqrt v.sqr_magnitude := rfl

lemma Vector3.magnitude_nonneg (v : Vector3) : 0 ≤ v.magnitude :=
  Real.sqrt_nonneg _

lemma Vector3.sq_magnitude (v : Vector3) :
    v.magnitude * v.magnitude = v.sqr_magnitude := by
  rw [Vector3.magnitude_eq_sqrt]
  exact Real.mul_self_sqrt v.sqr_magnitude_nonneg

/-- When the magnitude clears the epsilon guard, `normalized` yields a unit
vector (its magnitude is exactly 1 in the real-number model). -/
lemma Vector3.magnitude_normalized (v : Vector3) (h : v.magnitude > EPSILON) :
    v.normalized.magnitude = 1 := by
  have hm : 0 < v.magnitude := lt_trans EPSILON_pos h
  have hS : 0 < v.sqr_magnitude := by nlinarith [v.sq_magnitude]
  have hsum : v.x / v.magnitude * (v.x / v.magnitude) +
      v.y / v.magnitude * (v.y / v.magnitude) +
      v.z / v.magnitude * (v.z / v.magnitude) =
      v.sqr_magnitude / (v.magnitude * v.magnitude) := by
    rw [Vector3.sqr_magnitude]
    field_simp
  rw [Vector3.normalized, if_pos h, Vector3.div]
  show Real.sqrt _ = 1
  rw [hsum, v.sq_magnitude, div_self hS.ne']
  exact Real.sqrt_one

lemma Vector3.normalized_of_small (v : Vector3) (h : ¬ v.magnitude > EPSILON) :
    v.normalized = Vector3.ZERO := by
  rw [Vector3.normalized, if_neg h]

lemma magnitude_five : Vector3.magnitude ⟨5, 0, 0⟩ = 5 := by
  show Real.sqrt (5 * 5 + 0 * 0 + 0 * 0) = 5
  rw [show (5 * 5 + 0 * 0 + 0 * 0 : ℝ) = 5 ^ 2 by norm_num,
    Real.sqrt_sq (by norm_num : (0 : ℝ) ≤ 5)]

-- Claim theorems.

/-- C3: for every vector v, when v's magnitude exceeds the epsilon threshold
`v.normalized()` has magnitude approximately 1, otherwise `v.normalized()`
is exactly `ZERO`; and the mutating `normalize()` leaves its receiver equal
to `normalized()`'s result. -/
theorem claim_C3_normalized (v : Vector3) :
    (v.magnitude > EPSILON → approx_eq v.normalized.magnitude 1) ∧
    (¬ v.magnitude > EPSILON → v.normalized = Vector3.ZERO) ∧
    v.normalize = v.normalized :=
  ⟨fun h => approx_eq_of_eq (v.magnitude_normalized h), v.normalized_of_small, rfl⟩

/-- Witness for C3 at the concrete vector (5, 0, 0). -/
theorem claim_C3_normalized_witness :
    Vector3.magnitude ⟨5, 0, 0⟩ > EPSILON ∧
    approx_eq (Vector3.normalized ⟨5, 0, 0⟩).magnitude 1 := by
  have h : Vector3.magnitude ⟨5, 0, 0⟩ > EPSILON := by
    rw [magnitude_five, EPSILON]; norm_num
  exact ⟨h, (claim_C3_normalized ⟨5, 0, 0⟩).1 h⟩

/-- C5: for all vectors a and b, (a + b) − b is approximately equal to a
under the epsilon-based approximate vector equality. -/
theorem claim_C5_add_sub_roundtrip (a b : Vector3) :
    Vector3.eq ((a.add b).sub b) a := by
  refine ⟨approx_eq_of_eq ?_, approx_eq_of_eq ?_, approx_eq_of_eq ?_⟩ <;>
    simp [Vector3.add, Vector3.sub]

/-- C6: `cross` computes the right-handed cross product with components
(a.y*b.z − a.z*b.y, a.z*b.x − a.x*b.z, a.x*b.y − a.y*b.x), and
`FORWARD.cross(RIGHT) == UP`. -/
theorem claim_C6_cross :
    (∀ a b : Vector3, a.cross b =
      ⟨a.y * b.z - a.z * b.y, a.z * b.x - a.x * b.z, a.x * b.y - a.y * b.x⟩) ∧
    Vector3.eq (Vector3.FORWARD.cross Vector3.RIGHT) Vector3.UP := by
  refine ⟨fun a b => rfl, Vector3.eq_of_eq ?_⟩
  simp [Vector3.cross, Vector3.FORWARD, Vector3.RIGHT, Vector3.UP]

/-- C9: both scalar-multiplication orderings multiply every component of v
by s, so they agree exactly and hence under `==`. -/
theorem claim_C9_scalar_mul_commutes (s : ℝ) (v : Vector3) :
    Vector3.scalar_mul s v = ⟨v.x * s, v.y * s, v.z * s⟩ ∧
    v.mul s = ⟨v.x * s, v.y * s, v.z * s⟩ ∧
    Vector3.eq (Vector3.scalar_mul s v) (v.mul s) :=
  ⟨rfl, rfl, Vector3.eq_of_eq rfl⟩

lemma Vector3.magnitude_ZERO : Vector3.ZERO.magnitude = 0 := by
  show Real.sqrt (0 * 0 + 0 * 0 + 0 * 0) = 0
  rw [show (0 * 0 + 0 * 0 + 0 * 0 : ℝ) = 0 by norm_num, Real.sqrt_zero]

lemma Vector3.normalized_ZERO : Vector3.ZERO.normalized = Vector3.ZERO := by
  apply Vector3.normalized_of_small
  rw [Vector3.magnitude_ZERO]
  exact not_lt_of_lt EPSILON_pos

lemma Vector3.magnitude_RIGHT : Vector3.RIGHT.magnitude = 1 := by
  show Real.sqrt (1 * 1 + 0 * 0 + 0 * 0) = 1
  rw [show (1 * 1 + 0 * 0 + 0 * 0 : ℝ) = 1 by norm_num, Real.sqrt_one]

lemma Vector3.magnitude_UP : Vector3.UP.magnitude = 1 := by
  show Real.sqrt (0 * 0 + 1 * 1 + 0 * 0) = 1
  rw [show (0 * 0 + 1 * 1 + 0 * 0 : ℝ) = 1 by norm_num, Real.sqrt_one]

lemma EPSILON_lt_one : EPSILON < 1 := by rw [EPSILON]; norm_num

lemma Vector3.normalized_RIGHT : Vector3.RIGHT.normalized = Vector3.RIGHT := by
  rw [Vector3.normalized, if_pos (by rw [Vector3.magnitude_RIGHT]; exact EPSILON_lt_one),
    Vector3.magnitude_RIGHT]
  ext <;> simp [Vector3.div, Vector3.RIGHT]

lemma Vector3.normalized_UP : Vector3.UP.normalized = Vector3.UP := by
  rw [Vector3.normalized, if_pos (by rw [Vector3.magnitude_UP]; exact EPSILON_lt_one),
    Vector3.magnitude_UP]
  ext <;> simp [Vector3.div, Vector3.UP]

lemma rust_clamp_zero : Vector3.rust_clamp 0 (-1) 1 = 0 := by
  rw [Vector3.rust_clamp, if_neg (by norm_num), if_neg (by norm_num)]

lemma Vector3.eq_ZERO_of_sqr_magnitude_eq_zero (v : Vector3)
    (h : v.sqr_magnitude = 0) : v = Vector3.ZERO := by
  rw [Vector3.sqr_magnitude] at h
  have hx := mul_self_nonneg v.x
  have hy := mul_self_nonneg v.y
  have hz := mul_self_nonneg v.z
  have hx0 : v.x = 0 := mul_self_eq_zero.mp (by linarith)
  have hy0 : v.y = 0 := mul_self_eq_zero.mp (by linarith)
  have hz0 : v.z = 0 := mul_self_eq_zero.mp (by linarith)
  ext <;> simp [hx0, hy0, hz0, Vector3.ZERO]

/-- C7: `angle` is acos of the clamped dot product of the two normalized
inputs; `RIGHT.angle(UP)` is approximately π/2; and when either input is
the zero vector the result is exactly π/2. -/
theorem claim_C7_angle :
    (∀ a b : Vector3, a.angle b =
      Real.arccos (Vector3.rust_clamp (a.normalized.dot b.normalized) (-1) 1)) ∧
    approx_eq (Vector3.RIGHT.angle Vector3.UP) (Real.pi / 2) ∧
    (∀ b : Vector3, Vector3.ZERO.angle b = Real.pi / 2 ∧
      b.angle Vector3.ZERO = Real.pi / 2) := by
  refine ⟨fun a b => rfl, ?_, fun b => ⟨?_, ?_⟩⟩
  · apply approx_eq_of_eq
    rw [Vector3.angle, Vector3.normalized_RIGHT, Vector3.normalized_UP,
      show Vector3.RIGHT.dot Vector3.UP = 0 by
        simp [Vector3.dot, Vector3.RIGHT, Vector3.UP],
      rust_clamp_zero, Real.arccos_zero]
  · rw [Vector3.angle, Vector3.normalized_ZERO,
      show Vector3.ZERO.dot b.normalized = 0 by simp [Vector3.dot, Vector3.ZERO],
      rust_clamp_zero, Real.arccos_zero]
  · rw [Vector3.angle, Vector3.normalized_ZERO,
      show b.normalized.dot Vector3.ZERO = 0 by simp [Vector3.dot, Vector3.ZERO],
      rust_clamp_zero, Real.arccos_zero]

/-- C8: vector equality is component-wise approximate equality; it is
reflexive and symmetric, but not transitive: at the epsilon boundary,
(0,0,0) == (ε,0,0) and (ε,0,0) == (2ε,0,0) yet (0,0,0) ≠ (2ε,0,0). -/
theorem claim_C8_equality :
    (∀ a b : Vector3, Vector3.eq a b ↔
      (approx_eq a.x b.x ∧ approx_eq a.y b.y ∧ approx_eq a.z b.z)) ∧
    (∀ a : Vector3, Vector3.eq a a) ∧
    (∀ a b : Vector3, Vector3.eq a b → Vector3.eq b a) ∧
    (Vector3.eq ⟨0, 0, 0⟩ ⟨EPSILON, 0, 0⟩ ∧
      Vector3.eq ⟨EPSILON, 0, 0⟩ ⟨2 * EPSILON, 0, 0⟩ ∧
      ¬ Vector3.eq ⟨0, 0, 0⟩ ⟨2 * EPSILON, 0, 0⟩) := by
  have hε := EPSILON_pos
  have habs1 : |(0 : ℝ) - EPSILON| = EPSILON := by
    rw [abs_sub_comm, sub_zero]
    exact abs_of_nonneg hε.le
  have habs2 : |EPSILON - 2 * EPSILON| = EPSILON := by
    rw [abs_sub_comm, show 2 * EPSILON - EPSILON = EPSILON by ring]
    exact abs_of_nonneg hε.le
  have habs3 : |(0 : ℝ) - 2 * EPSILON| = 2 * EPSILON := by
    rw [abs_sub_comm, sub_zero]
    exact abs_of_nonneg (by linarith)
  refine ⟨fun a b => Iff.rfl, fun a => Vector3.eq_of_eq rfl, fun a b h => ?_, ?_, ?_, ?_⟩
  · obtain ⟨h1, h2, h3⟩ := h
    rw [approx_eq, abs_sub_comm] at h1 h2 h3
    exact ⟨h1, h2, h3⟩
  · refine ⟨?_, approx_eq_of_eq rfl, approx_eq_of_eq rfl⟩
    show |(0 : ℝ) - EPSILON| ≤ EPSILON
    rw [habs1]
  · refine ⟨?_, approx_eq_of_eq rfl, approx_eq_of_eq rfl⟩
    show |EPSILON - 2 * EPSILON| ≤ EPSILON
    rw [habs2]
  · intro h
    have h1 : |(0 : ℝ) - 2 * EPSILON| ≤ EPSILON := h.1
    rw [habs3] at h1
    linarith

/-- Witness for C8's symmetry at a concrete pair: symmetry applied to the
boundary pair (0,0,0) == (ε,0,0) gives (ε,0,0) == (0,0,0). -/
theorem claim_C8_equality_witness :
    Vector3.eq ⟨EPSILON, 0, 0⟩ ⟨0, 0, 0⟩ := by
  apply claim_C8_equality.2.2.1 ⟨0, 0, 0⟩ ⟨EPSILON, 0, 0⟩
  refine ⟨?_, approx_eq_of_eq rfl, approx_eq_of_eq rfl⟩
  show |(0 : ℝ) - EPSILON| ≤ EPSILON
  rw [abs_sub_comm, sub_zero]
  exact le_of_eq (abs_of_nonneg EPSILON_pos.le)

/-- C10: the degenerate zero-length segment call `p.project_on_segment(s, s)`
returns exactly the zero vector, for every point p and every s. -/
theorem claim_C10_degenerate_segment (p s : Vector3) :
    p.project_on_segment s s = Vector3.ZERO := by
  have hseg : s.sub s = Vector3.ZERO := by
    ext <;> simp [Vector3.sub, Vector3.ZERO]
  rw [Vector3.project_on_segment, hseg, Vector3.normalized_ZERO, Vector3.magnitude_ZERO,
    Vector3.project, if_pos (by simp [Vector3.dot, Vector3.ZERO]; exact EPSILON_pos),
    Vector3.clamp_magnitude]
  split_ifs with h
  · ext <;> simp [Vector3.mul, Vector3.ZERO]
  · rw [not_lt] at h
    exact Vector3.eq_ZERO_of_sqr_magnitude_eq_zero _
      (le_antisymm (by simpa using h) (Vector3.sqr_magnitude_nonneg _))

lemma Vector3.project_of_not_lt (v n : Vector3) (h : ¬ n.dot n < EPSILON) :
    v.project n = (v.mul (v.dot n)).div (n.dot n) := by
  rw [Vector3.project, if_neg h]

lemma spec_project_of_not_lt (v n : Vector3) (h : ¬ n.dot n < EPSILON) :
    spec_project v n = (n.mul (v.dot n)).div (n.dot n) := by
  rw [spec_project, if_neg h]

lemma magnitude_axis (a : ℝ) (h : 0 ≤ a) : Vector3.magnitude ⟨a, 0, 0⟩ = a := by
  show Real.sqrt (a * a + 0 * 0 + 0 * 0) = a
  rw [show a * a + 0 * 0 + 0 * 0 = a * a by ring, Real.sqrt_mul_self h]

lemma normalized_axis (a : ℝ) (h : EPSILON < a) :
    Vector3.normalized ⟨a, 0, 0⟩ = ⟨1, 0, 0⟩ := by
  have ha : 0 < a := lt_trans EPSILON_pos h
  rw [Vector3.normalized, if_pos (by rw [magnitude_axis a ha.le]; exact h),
    magnitude_axis a ha.le]
  ext <;> simp [Vector3.div]
  exact div_self ha.ne'

/-- C1 (divergence of `project` from the spec and from the repository's own
`project` test): the code's else branch scales `*self` instead of `normal`,
so `RIGHT.project(RIGHT*2.0)` evaluates to (0.5, 0, 0), which is not `==`
to RIGHT; the spec's formula at the same input yields RIGHT. -/
theorem claim_C1_project_divergence :
    Vector3.RIGHT.project (Vector3.RIGHT.mul 2) = ⟨1 / 2, 0, 0⟩ ∧
    ¬ Vector3.eq (Vector3.RIGHT.project (Vector3.RIGHT.mul 2)) Vector3.RIGHT ∧
    spec_project Vector3.RIGHT (Vector3.RIGHT.mul 2) = Vector3.RIGHT := by
  have hn : (Vector3.RIGHT.mul 2).dot (Vector3.RIGHT.mul 2) = 4 := by
    norm_num [Vector3.dot, Vector3.mul, Vector3.RIGHT]
  have hguard : ¬ (Vector3.RIGHT.mul 2).dot (Vector3.RIGHT.mul 2) < EPSILON := by
    rw [hn, EPSILON]; norm_num
  have hcode : Vector3.RIGHT.project (Vector3.RIGHT.mul 2) = ⟨1 / 2, 0, 0⟩ := by
    rw [Vector3.project_of_not_lt _ _ hguard, hn]
    ext <;> norm_num [Vector3.mul, Vector3.div, Vector3.dot, Vector3.RIGHT]
  refine ⟨hcode, ?_, ?_⟩
  · intro h
    have hx : |(1 / 2 : ℝ) - 1| ≤ EPSILON := by
      have := h.1
      rwa [hcode] at this
    rw [show |(1 / 2 : ℝ) - 1| = 1 / 2 by
      rw [abs_sub_comm, show (1 : ℝ) - 1 / 2 = 1 / 2 by norm_num]
      exact abs_of_nonneg (by norm_num), EPSILON] at hx
    norm_num at hx
  · rw [spec_project_of_not_lt _ _ hguard, hn]
    ext <;> norm_num [Vector3.mul, Vector3.div, Vector3.dot, Vector3.RIGHT]

/-- C2 (divergence inherited from the `project` bug): `project_on_plane` is
indeed `v - v.project(normal)`, but at v = −FORWARD*4, normal = FORWARD the
code yields (0, 0, −20): its dot product with the normal is −20 (not ≈ 0)
and it is not `==` ZERO, contradicting the repository's own
`project_on_plane` test; subtracting the spec's projection instead yields
exactly ZERO. -/
theorem claim_C2_project_on_plane_divergence :
    (∀ v normal : Vector3, v.project_on_plane normal = v.sub (v.project normal)) ∧
    (Vector3.FORWARD.neg.mul 4).project_on_plane Vector3.FORWARD = ⟨0, 0, -20⟩ ∧
    ¬ approx_eq (((Vector3.FORWARD.neg.mul 4).project_on_plane
        Vector3.FORWARD).dot Vector3.FORWARD) 0 ∧
    ¬ Vector3.eq ((Vector3.FORWARD.neg.mul 4).project_on_plane Vector3.FORWARD)
        Vector3.ZERO ∧
    (Vector3.FORWARD.neg.mul 4).sub
        (spec_project (Vector3.FORWARD.neg.mul 4) Vector3.FORWARD) = Vector3.ZERO := by
  have hn : Vector3.FORWARD.dot Vector3.FORWARD = 1 := by
    norm_num [Vector3.dot, Vector3.FORWARD]
  have hguard : ¬ Vector3.FORWARD.dot Vector3.FORWARD < EPSILON := by
    rw [hn, EPSILON]; norm_num
  have hproj : (Vector3.FORWARD.neg.mul 4).project Vector3.FORWARD = ⟨0, 0, 16⟩ := by
    rw [Vector3.project_of_not_lt _ _ hguard, hn]
    ext <;> norm_num [Vector3.mul, Vector3.div, Vector3.dot, Vector3.neg, Vector3.FORWARD]
  have hplane : (Vector3.FORWARD.neg.mul 4).project_on_plane Vector3.FORWARD =
      ⟨0, 0, -20⟩ := by
    rw [Vector3.project_on_plane, hproj]
    ext <;> norm_num [Vector3.sub, Vector3.mul, Vector3.neg, Vector3.FORWARD]
  refine ⟨fun v normal => rfl, hplane, ?_, ?_, ?_⟩
  · intro h
    rw [hplane] at h
    have : |((Vector3.mk 0 0 (-20)).dot Vector3.FORWARD : ℝ) - 0| ≤ EPSILON := h
    rw [show ((Vector3.mk 0 0 (-20)).dot Vector3.FORWARD : ℝ) = -20 by
      norm_num [Vector3.dot, Vector3.FORWARD], EPSILON] at this
    rw [show |(-20 : ℝ) - 0| = 20 by
      rw [sub_zero, abs_neg]
      exact abs_of_nonneg (by norm_num)] at this
    norm_num at this
  · intro h
    rw [hplane] at h
    have hz : |(-20 : ℝ) - 0| ≤ EPSILON := h.2.2
    rw [show |(-20 : ℝ) - 0| = 20 by
      rw [sub_zero, abs_neg]
      exact abs_of_nonneg (by norm_num), EPSILON] at hz
    norm_num at hz
  · rw [spec_project_of_not_lt _ _ hguard, hn]
    ext <;> norm_num [Vector3.sub, Vector3.mul, Vector3.div, Vector3.dot,
      Vector3.neg, Vector3.FORWARD, Vector3.ZERO]

lemma Vector3.magnitude_mul (v : Vector3) (s : ℝ) :
    (v.mul s).magnitude = |s| * v.magnitude := by
  show Real.sqrt (v.x * s * (v.x * s) + v.y * s * (v.y * s) + v.z * s * (v.z * s)) =
    |s| * Real.sqrt (v.x * v.x + v.y * v.y + v.z * v.z)
  rw [show v.x * s * (v.x * s) + v.y * s * (v.y * s) + v.z * s * (v.z * s) =
    s ^ 2 * (v.x * v.x + v.y * v.y + v.z * v.z) by ring,
    Real.sqrt_mul (sq_nonneg s), Real.sqrt_sq_eq_abs]

lemma Vector3.magnitude_normalized_le_one (v : Vector3) :
    v.normalized.magnitude ≤ 1 := by
  by_cases h : v.magnitude > EPSILON
  · rw [v.magnitude_normalized h]
  · rw [v.normalized_of_small h, Vector3.magnitude_ZERO]
    norm_num

lemma Vector3.magnitude_clamp_magnitude_le (v : Vector3) {m : ℝ} (hm : 0 ≤ m) :
    (v.clamp_magnitude m).magnitude ≤ m := by
  rw [Vector3.clamp_magnitude]
  split_ifs with h
  · rw [Vector3.magnitude_mul, abs_of_nonneg hm]
    exact mul_le_of_le_one_right hm v.magnitude_normalized_le_one
  · rw [not_lt] at h
    rw [Vector3.magnitude_eq_sqrt]
    calc Real.sqrt v.sqr_magnitude ≤ Real.sqrt (m * m) := Real.sqrt_le_sqrt h
      _ = m := Real.sqrt_mul_self hm

/-- C4 counterexample: at point (1/2, 1, 0), start (0, 1, 0), end (1, 1, 0)
the code returns (1/4, −1/2, 0) while projecting the point onto the line
through start and end (relative to start, clamped) gives (1/2, 0, 0); the
two are not approximately equal. -/
theorem claim_C4_counterexample :
    Vector3.project_on_segment ⟨1 / 2, 1, 0⟩ ⟨0, 1, 0⟩ ⟨1, 1, 0⟩ = ⟨1 / 4, -(1 / 2), 0⟩ ∧
    spec_project_on_segment ⟨1 / 2, 1, 0⟩ ⟨0, 1, 0⟩ ⟨1, 1, 0⟩ = ⟨1 / 2, 0, 0⟩ ∧
    ¬ Vector3.eq (Vector3.project_on_segment ⟨1 / 2, 1, 0⟩ ⟨0, 1, 0⟩ ⟨1, 1, 0⟩)
      (spec_project_on_segment ⟨1 / 2, 1, 0⟩ ⟨0, 1, 0⟩ ⟨1, 1, 0⟩) := by
  have hsub : (Vector3.mk 1 1 0).sub ⟨0, 1, 0⟩ = ⟨1, 0, 0⟩ := by
    ext <;> norm_num [Vector3.sub]
  have hnorm : Vector3.normalized ⟨1, 0, 0⟩ = ⟨1, 0, 0⟩ :=
    normalized_axis 1 EPSILON_lt_one
  have hmag1 : Vector3.magnitude ⟨1, 0, 0⟩ = 1 := magnitude_axis 1 (by norm_num)
  have hdotn : (Vector3.mk 1 0 0).dot ⟨1, 0, 0⟩ = 1 := by norm_num [Vector3.dot]
  have hguard : ¬ (Vector3.mk 1 0 0).dot ⟨1, 0, 0⟩ < EPSILON := by
    rw [hdotn, EPSILON]; norm_num
  have hproj : (Vector3.mk (1 / 2) 1 0).project ⟨1, 0, 0⟩ = ⟨1 / 4, 1 / 2, 0⟩ := by
    rw [Vector3.project_of_not_lt _ _ hguard, hdotn]
    ext <;> norm_num [Vector3.mul, Vector3.div, Vector3.dot]
  have hcode : Vector3.project_on_segment ⟨1 / 2, 1, 0⟩ ⟨0, 1, 0⟩ ⟨1, 1, 0⟩ =
      ⟨1 / 4, -(1 / 2), 0⟩ := by
    rw [Vector3.project_on_segment, hsub, hnorm, hproj, hmag1,
      show (Vector3.mk (1 / 4) (1 / 2) 0).sub ⟨0, 1, 0⟩ = ⟨1 / 4, -(1 / 2), 0⟩ by
        ext <;> norm_num [Vector3.sub],
      Vector3.clamp_magnitude, if_neg (by norm_num [Vector3.sqr_magnitude])]
  have hspec : spec_project_on_segment ⟨1 / 2, 1, 0⟩ ⟨0, 1, 0⟩ ⟨1, 1, 0⟩ =
      ⟨1 / 2, 0, 0⟩ := by
    rw [spec_project_on_segment, hsub, hnorm, hmag1,
      show ((Vector3.mk 0 1 0).add ((Vector3.mk 1 0 0).mul
          (((Vector3.mk (1 / 2) 1 0).sub ⟨0, 1, 0⟩).dot ⟨1, 0, 0⟩))).sub ⟨0, 1, 0⟩ =
          ⟨1 / 2, 0, 0⟩ by
        ext <;> norm_num [Vector3.add, Vector3.mul, Vector3.sub, Vector3.dot],
      Vector3.clamp_magnitude, if_neg (by norm_num [Vector3.sqr_magnitude])]
  refine ⟨hcode, hspec, ?_⟩
  intro h
  rw [hcode, hspec] at h
  have hy : |(-(1 / 2) : ℝ) - 0| ≤ EPSILON := h.2.1
  rw [show |(-(1 / 2) : ℝ) - 0| = 1 / 2 by
    rw [sub_zero, abs_neg]
    exact abs_of_nonneg (by norm_num), EPSILON] at hy
  norm_num at hy

/-- C4 amended: `project_on_segment(point, start, end)` computes
`(point.project((end−start).normalized()) − start).clamp_magnitude(|end−start|)`
— the projection is onto the segment direction through the origin (not onto
the line through start), then start is subtracted and only an upper clamp is
applied, so the result's magnitude never exceeds the segment length; in
particular `(RIGHT*4).project_on_segment(ZERO, RIGHT*2) == (2, 0, 0)`. -/
theorem claim_C4_amended :
    (∀ p start e : Vector3, p.project_on_segment start e =
      ((p.project (e.sub start).normalized).sub start).clamp_magnitude
        (e.sub start).magnitude) ∧
    (∀ p start e : Vector3,
      (p.project_on_segment start e).magnitude ≤ (e.sub start).magnitude) ∧
    Vector3.eq ((Vector3.RIGHT.mul 4).project_on_segment Vector3.ZERO
      (Vector3.RIGHT.mul 2)) ⟨2, 0, 0⟩ := by
  refine ⟨fun p start e => rfl,
    fun p start e => Vector3.magnitude_clamp_magnitude_le _ (Vector3.magnitude_nonneg _),
    ?_⟩
  have hsub : (Vector3.RIGHT.mul 2).sub Vector3.ZERO = ⟨2, 0, 0⟩ := by
    ext <;> norm_num [Vector3.RIGHT, Vector3.mul, Vector3.sub, Vector3.ZERO]
  have hnorm2 : Vector3.normalized ⟨2, 0, 0⟩ = ⟨1, 0, 0⟩ :=
    normalized_axis 2 (lt_trans EPSILON_lt_one (by norm_num))
  have hmag2 : Vector3.magnitude ⟨2, 0, 0⟩ = 2 := magnitude_axis 2 (by norm_num)
  have hdotn : (Vector3.mk 1 0 0).dot ⟨1, 0, 0⟩ = 1 := by norm_num [Vector3.dot]
  have hguard : ¬ (Vector3.mk 1 0 0).dot ⟨1, 0, 0⟩ < EPSILON := by
    rw [hdotn, EPSILON]; norm_num
  have hproj : (Vector3.RIGHT.mul 4).project ⟨1, 0, 0⟩ = ⟨16, 0, 0⟩ := by
    rw [Vector3.project_of_not_lt _ _ hguard, hdotn]
    ext <;> norm_num [Vector3.mul, Vector3.div, Vector3.dot, Vector3.RIGHT]
  rw [Vector3.project_on_segment, hsub, hnorm2, hproj, hmag2,
    show (Vector3.mk 16 0 0).sub Vector3.ZERO = ⟨16, 0, 0⟩ by
      ext <;> norm_num [Vector3.sub, Vector3.ZERO],
    Vector3.clamp_magnitude, if_pos (by norm_num [Vector3.sqr_magnitude]),
    normalized_axis 16 (lt_trans EPSILON_lt_one (by norm_num))]
  exact Vector3.eq_of_eq (by ext <;> norm_num [Vector3.mul])

end TechMath
